import Mathlib

/-!
Shallow embedding of the `tou_writer` Home Assistant component
(`custom_components/tou_writer/__init__.py`), covering:

* `_parse_time_to_minutes` — "HH:MM" parsing via `str.strip`, `str.split(":")`
  and Python `int()`;
* `_build_tariff` — expansion of rate periods onto the 48 half-hour slot grid
  and assembly of the `tariff_content_v2` document;
* `_send_to_teslemetry` — one HTTP POST exchange, abstracted over the network;
* `_send_with_retry` — bounded retry with fixed backoff and status
  classification;
* `_verify_tariff` — readback verification against the stored buy-side table;
* `async_handle_push_tou` — the orchestrating service handler.

Strings are modelled as Lean `String` / `List Char`; Python `float` prices are
modelled as `ℚ` (the claims under study are insensitive to binary floating
point rounding; `round(x, 6)` is modelled as rounding to six decimal places,
ties rounding as Mathlib's `round` does, which no claim distinguishes).
Python `int` is modelled as `ℤ`.  Exceptions are modelled with `Except`.
Logging calls are modelled, where a claim observes them, as returned
diagnostic lists; constant JSON scaffolding of the tariff document that no
code path reads (`daily_charges`, `demand_charges`, the empty `Winter`
placeholders, the fixed `seasons.Summer` date range) is kept only as the
fixed fields below.
-/

/-! ## Python string and int primitives -/

/-- Python `str.strip()` on a list of characters: drop whitespace from both
ends. -/
def pyStrip (l : List Char) : List Char :=
  ((l.dropWhile Char.isWhitespace).reverse.dropWhile Char.isWhitespace).reverse

/-- Python `s.split(":")`: split on every colon, keeping empty pieces, so that
`"a:b"` gives `["a", "b"]`, `":"` gives `["", ""]` and `""` gives `[""]`. -/
def splitColon : List Char → List (List Char)
  | [] => [[]]
  | c :: rest =>
    let r := splitColon rest
    if c = ':' then [] :: r
    else
      match r with
      | [] => [[c]]
      | h :: t => (c :: h) :: t

/-- Numeric value of a list of decimal digit characters. -/
def digitsVal (l : List Char) : Nat :=
  l.foldl (fun acc c => 10 * acc + (c.toNat - '0'.toNat)) 0

/-- Parse a non-empty all-digit character list, else `none`. -/
def digitsToNat (l : List Char) : Option Nat :=
  if l ≠ [] ∧ l.all Char.isDigit then some (digitsVal l) else none

/-- Python `int(s)` on a string: strip whitespace, optional single sign, then
a non-empty run of decimal digits; anything else raises, modelled as `none`.
(Underscore digit grouping and non-ASCII decimals accepted by CPython are not
modelled; no claim distinguishes them.) -/
def pyInt (l : List Char) : Option Int :=
  match pyStrip l with
  | '+' :: rest => (digitsToNat rest).map (fun n => (n : Int))
  | '-' :: rest => (digitsToNat rest).map (fun n => -(n : Int))
  | s => (digitsToNat s).map (fun n => (n : Int))

/-- Does a character list have the shape of a Python integer literal with no
surrounding whitespace: an optional sign followed by one or more digits? -/
def intLit (l : List Char) : Bool :=
  match l with
  | [] => false
  | c :: rest =>
    if c = '+' ∨ c = '-' then !rest.isEmpty && rest.all Char.isDigit
    else (c :: rest).all Char.isDigit

/-! ## `_parse_time_to_minutes` -/

/-- `_parse_time_to_minutes`: convert `"HH:MM"` to minutes since midnight.
Mirrors the source: strip, split on `":"`, require exactly two parts, convert
each with `int()`, return `hours * 60 + mins`.  The source's range check
(`0 <= hours <= 23 and mins in (0, 30)`) is inert: its body is `pass`. -/
def _parse_time_to_minutes (time_str : String) : Except String Int :=
  match splitColon (pyStrip time_str.data) with
  | [hs, ms] =>
    match pyInt hs, pyInt ms with
    | some hours, some mins => Except.ok (hours * 60 + mins)
    | _, _ => Except.error ("invalid literal for int with base 10: " ++ time_str)
  | _ => Except.error ("Invalid time format: " ++ time_str ++ " (expected HH:MM)")

/-- Does `_parse_time_to_minutes` succeed on this string? -/
def timeOk (s : String) : Bool :=
  match _parse_time_to_minutes s with
  | Except.ok _ => true
  | Except.error _ => false

/-! ## Rate periods and minute stamping -/

/-- One service-call rate period `{start, end, buy, sell}`; `end_` mirrors the
source's `"end"` key, prices are cents/kWh. -/
structure Rate where
  start : String
  end_ : String
  buy : ℚ
  sell : ℚ
deriving DecidableEq

/-- Python `round(q, 6)`: round to six decimal places. -/
def round6 (q : ℚ) : ℚ :=
  ((round (q * 1000000) : ℤ) : ℚ) / 1000000

/-- Dollar prices of a rate: `round(rate[...] / 100.0, 6)` for buy and sell. -/
def ratePrices (r : Rate) : ℚ × ℚ :=
  (round6 (r.buy / 100), round6 (r.sell / 100))

/-- The `while m < end_min` stamping loop of `_build_tariff`: starting at
minute `m`, stamp every 30th minute mark strictly below `e` with prices `p`,
overwriting the accumulated map. -/
def stampLoop (e : Int) (p : ℚ × ℚ) (m : Int) (acc : Int → Option (ℚ × ℚ)) :
    Int → Option (ℚ × ℚ) :=
  if m < e then
    stampLoop e p (m + 30) (fun x => if x = m then some p else acc x)
  else acc
termination_by (e - m).toNat
decreasing_by simp_wf; omega

/-- One iteration of the `for rate in rates` loop of `_build_tariff`: parse
start and end, reinterpret an end of `00:00` (minute 0) as minute 1440, then
stamp.  Parse failures propagate as the exception. -/
def stampRate (acc : Int → Option (ℚ × ℚ)) (r : Rate) :
    Except String (Int → Option (ℚ × ℚ)) :=
  match _parse_time_to_minutes r.start with
  | Except.error e => Except.error e
  | Except.ok start_min =>
    match _parse_time_to_minutes r.end_ with
    | Except.error e => Except.error e
    | Except.ok end_min0 =>
      Except.ok (stampLoop (if end_min0 = 0 then 1440 else end_min0)
        (ratePrices r) start_min acc)

/-- The full `for rate in rates` loop: fold `stampRate` over the rates in
input order (later rates overwrite earlier marks). -/
def minutePricesOf : List Rate → (Int → Option (ℚ × ℚ)) →
    Except String (Int → Option (ℚ × ℚ))
  | [], acc => Except.ok acc
  | r :: rest, acc =>
    match stampRate acc r with
    | Except.error e => Except.error e
    | Except.ok acc' => minutePricesOf rest acc'

/-! ## Slot grid and document assembly -/

/-- Two-digit decimal rendering, as Python's `{:02d}` for values below 100. -/
def fmt2 (n : Nat) : String :=
  if n < 10 then "0" ++ Nat.repr n else Nat.repr n

/-- Canonical key of slot `slot` (0–47): `f"PERIOD_{h:02d}_{m:02d}"` with
`h = slot*30 // 60`, `m = slot*30 % 60`. -/
def slotKey (slot : Nat) : String :=
  "PERIOD_" ++ fmt2 (slot * 30 / 60) ++ "_" ++ fmt2 (slot * 30 % 60)

/-- The 48 canonical slot keys in order. -/
def slotKeys : List String :=
  (List.range 48).map slotKey

/-- Slot price lookup of `_build_tariff`: the stamped prices at the slot's
start minute, defaulting to `(0, 0)` when no rate covers it. -/
def slotPrices (mp : Int → Option (ℚ × ℚ)) (slot : Nat) : ℚ × ℚ :=
  match mp (30 * (slot : Int)) with
  | some p => p
  | none => (0, 0)

/-- The warning diagnostic `_build_tariff` emits for a slot: the slot's key
when no rate covers its start minute (the source logs
"No rate covers period <key> - defaulting to 0"), else nothing. -/
def slotWarning (mp : Int → Option (ℚ × ℚ)) (slot : Nat) : Option String :=
  match mp (30 * (slot : Int)) with
  | some _ => none
  | none => some (slotKey slot)

/-- One `tou_periods` entry: a half-hour window spanning the whole week, with
`toHour` wrapped to 0 at end of day (`end_h if end_h < 24 else 0`). -/
structure TouPeriod where
  name : String
  fromDayOfWeek : Nat
  toDayOfWeek : Nat
  fromHour : Nat
  fromMinute : Nat
  toHour : Nat
  toMinute : Nat
deriving DecidableEq

/-- The `tou_periods[key]` record built for slot `i`. -/
def mkTouPeriod (i : Nat) : TouPeriod :=
  let slot_min := i * 30
  let end_slot := slot_min + 30
  let end_h := end_slot / 60
  { name := slotKey i
    fromDayOfWeek := 0
    toDayOfWeek := 6
    fromHour := slot_min / 60
    fromMinute := slot_min % 60
    toHour := if end_h < 24 then end_h else 0
    toMinute := end_slot % 60 }

/-- The embedded `sell_tariff` sub-document: `sellRates` models its
`energy_charges.Summer.rates` table. -/
structure SellTariff where
  name : String
  sellRates : List (String × ℚ)
  touPeriods : List (String × TouPeriod)
deriving DecidableEq

/-- The `tariff_content_v2` document.  `buyRates` models
`energy_charges.Summer.rates`; `touPeriods` models
`seasons.Summer.tou_periods`.  Constant scaffolding fields are carried as the
fixed values the source writes. -/
structure Tariff where
  version : Nat
  code : String
  name : String
  utility : String
  currency : String
  buyRates : List (String × ℚ)
  touPeriods : List (String × TouPeriod)
  sell_tariff : SellTariff
deriving DecidableEq

/-- Default plan name. -/
def DEFAULT_PLAN_NAME : String := "Custom TOU (TOU Writer)"

/-- Python `plan_name or DEFAULT_PLAN_NAME`: `None` and the empty string are
falsy and fall back to the default. -/
def pyOrDefault (plan_name : Option String) : String :=
  match plan_name with
  | some s => if s = "" then DEFAULT_PLAN_NAME else s
  | none => DEFAULT_PLAN_NAME

/-- Result of `_build_tariff`: the document plus the uncovered-slot warning
diagnostics emitted while building it. -/
structure BuildResult where
  tariff : Tariff
  warnings : List String
deriving DecidableEq

/-- The slot-grid and assembly phase of `_build_tariff` (everything after the
stamping loop): build the 48-entry buy and sell price tables, the warning
list, the 48 `tou_periods`, and assemble the document. -/
def assembleTariff (mp : Int → Option (ℚ × ℚ)) (plan_name : Option String) :
    BuildResult :=
  let buy_prices := (List.range 48).map (fun slot => (slotKey slot, (slotPrices mp slot).1))
  let sell_prices := (List.range 48).map (fun slot => (slotKey slot, (slotPrices mp slot).2))
  let warnings := (List.range 48).filterMap (fun slot => slotWarning mp slot)
  let tou_periods := (List.range 48).map (fun i => (slotKey i, mkTouPeriod i))
  let name := pyOrDefault plan_name
  { tariff :=
      { version := 1
        code := "TOU_WRITER:CUSTOM"
        name := name
        utility := "Custom"
        currency := "AUD"
        buyRates := buy_prices
        touPeriods := tou_periods
        sell_tariff :=
          { name := name ++ " (Sell)"
            sellRates := sell_prices
            touPeriods := tou_periods } }
    warnings := warnings }

/-- `_build_tariff`: expand rate periods into the tariff document.  A parse
`ValueError` from any rate propagates; otherwise the assembled document and
its warning diagnostics are returned. -/
def _build_tariff (rates : List Rate) (plan_name : Option String) :
    Except String BuildResult :=
  match minutePricesOf rates (fun _ => none) with
  | Except.error e => Except.error e
  | Except.ok mp => Except.ok (assembleTariff mp plan_name)

/-- Does `_build_tariff` return a document (rather than raise)? -/
def buildSucceeds (rates : List Rate) (plan_name : Option String) : Bool :=
  match _build_tariff rates plan_name with
  | Except.ok _ => true
  | Except.error _ => false

/-- The service schema's `vol.Length(min=1)` constraint on `rates`. -/
def serviceRatesAccepted (rates : List Rate) : Bool :=
  decide (1 ≤ rates.length)

/-! ## Transport: `_send_to_teslemetry` -/

/-- Outcome of the one HTTP exchange `_send_to_teslemetry` performs, as seen
by the code: either an exception was raised before a response object could be
used (`aiohttp.ClientError` or any other exception — the two `except`
clauses), or a response with some status arrived and reading its body
(`response.json()` for 200, `response.text()` otherwise) either succeeded
(`bodyOk = true`) or itself raised (`bodyOk = false`). -/
inductive HttpExchange where
  | exception (isClientError : Bool)
  | response (status : Int) (bodyOk : Bool)
deriving DecidableEq

/-- `_send_to_teslemetry`: one POST.  Returns `(True, 200)` on a 200 response
whose JSON body parses; `(False, status)` on any other response whose body is
readable; `(False, 0)` when an exception is raised anywhere inside the `try`
block — including while reading the body of a response that did arrive. -/
def _send_to_teslemetry (x : HttpExchange) : Bool × Int :=
  match x with
  | HttpExchange.exception _ => (false, 0)
  | HttpExchange.response status bodyOk =>
    if status = 200 then
      if bodyOk then (true, 200) else (false, 0)
    else
      if bodyOk then (false, status) else (false, 0)

/-- Does this exchange yield no usable response (an exception before the
response, or a body that could not be read/parsed)? -/
def noUsableResponse (x : HttpExchange) : Bool :=
  match x with
  | HttpExchange.exception _ => true
  | HttpExchange.response _ bodyOk => !bodyOk

/-! ## `_send_with_retry` -/

/-- `MAX_RETRIES` from the source. -/
def MAX_RETRIES : Nat := 3

/-- `RETRY_DELAYS` from the source (seconds). -/
def RETRY_DELAYS : List Nat := [2, 4, 8]

/-- `RETRIABLE_STATUS_CODES` from the source. -/
def RETRIABLE_STATUS_CODES : List Int := [429, 500, 502, 503, 504]

/-- `PERMANENT_FAILURE_CODES` from the source. -/
def PERMANENT_FAILURE_CODES : List Int := [400, 401, 403]

/-- The `for attempt in range(1, MAX_RETRIES + 1)` loop of `_send_with_retry`,
from loop counter `attempt` with `fuel` iterations left.  `script n` is the
`(success, status)` pair `_send_to_teslemetry` returns on the n-th attempt;
`delays` accumulates the observed `asyncio.sleep` backoff delays in order.
Mirrors the source order: success check, permanent-failure check, last-attempt
break, 429 branch, retriable-or-network branch (same delay), else permanent
return; after the loop, `(False, MAX_RETRIES)`. -/
def retryLoop (script : Nat → Bool × Int) : Nat → Nat → List Nat →
    (Bool × Nat) × List Nat
  | _, 0, delays => ((false, MAX_RETRIES), delays)
  | attempt, fuel + 1, delays =>
    let r := script attempt
    if r.1 then ((true, attempt), delays)
    else if r.2 ∈ PERMANENT_FAILURE_CODES then ((false, attempt), delays)
    else if attempt = MAX_RETRIES then ((false, MAX_RETRIES), delays)
    else if r.2 = 429 then
      retryLoop script (attempt + 1) fuel (delays ++ [RETRY_DELAYS.getD (attempt - 1) 0])
    else if r.2 ∈ RETRIABLE_STATUS_CODES ∨ r.2 = 0 then
      retryLoop script (attempt + 1) fuel (delays ++ [RETRY_DELAYS.getD (attempt - 1) 0])
    else ((false, attempt), delays)

/-- `_send_with_retry`: run the retry loop from attempt 1.  The first
component is the `(success, attempt_count)` pair the caller sees; the second
is the trace of backoff delays slept. -/
def _send_with_retry (script : Nat → Bool × Int) : (Bool × Nat) × List Nat :=
  retryLoop script 1 MAX_RETRIES []

/-! ## `_verify_tariff` -/

/-- A JSON value, as produced by `response.json()`. -/
inductive JValue where
  | null
  | bool (b : Bool)
  | num (q : ℚ)
  | str (s : String)
  | arr (elems : List JValue)
  | obj (fields : List (String × JValue))

/-- Python exception kinds the verification code can raise. -/
inductive PyErr where
  | attributeError
  | typeError
deriving DecidableEq

/-- Python `d.get(key, default)`: raises `AttributeError` when `d` is not a
dict. -/
def pyGetD (v : JValue) (k : String) (dflt : JValue) : Except PyErr JValue :=
  match v with
  | JValue.obj fields => Except.ok ((fields.lookup k).getD dflt)
  | _ => Except.error PyErr.attributeError

/-- Python `d.get(key)` (default `None`, surfaced as `none`): raises
`AttributeError` when `d` is not a dict. -/
def pyGetOpt (v : JValue) (k : String) : Except PyErr (Option JValue) :=
  match v with
  | JValue.obj fields => Except.ok (fields.lookup k)
  | _ => Except.error PyErr.attributeError

/-- Python truth-value test on a JSON value (`if not stored`). -/
def jFalsy : JValue → Bool
  | JValue.null => true
  | JValue.bool b => !b
  | JValue.num q => q == 0
  | JValue.str s => s.isEmpty
  | JValue.arr elems => elems.isEmpty
  | JValue.obj fields => fields.isEmpty

/-- Numeric value of a JSON value for Python arithmetic (`bool` is numeric in
Python); anything else raises `TypeError`. -/
def jNum : JValue → Except PyErr ℚ
  | JValue.num q => Except.ok q
  | JValue.bool b => Except.ok (if b then 1 else 0)
  | _ => Except.error PyErr.typeError

/-- The stored-rates extraction of `_verify_tariff`:
`data.get("response", {}).get("tariff_content_v2", {}).get("energy_charges",
{}).get("Summer", {}).get("rates", {})`.  Runs outside the `try` block, so an
`AttributeError` propagates. -/
def extractStored (data : JValue) : Except PyErr JValue := do
  let a ← pyGetD data "response" (JValue.obj [])
  let b ← pyGetD a "tariff_content_v2" (JValue.obj [])
  let c ← pyGetD b "energy_charges" (JValue.obj [])
  let d ← pyGetD c "Summer" (JValue.obj [])
  pyGetD d "rates" (JValue.obj [])

/-- Outcome of the one GET exchange `_verify_tariff` performs: an exception
during the request or body read (all caught — the `except` clause catches
`Exception`), a response with status ≠ 200, a 200 response whose body fails to
parse as JSON (also caught), or a 200 response with parsed JSON body. -/
inductive ReadbackResult where
  | netError
  | httpError (status : Int)
  | jsonError
  | okBody (data : JValue)

/-- The per-slot mismatch test of `_verify_tariff`'s comparison loop: `true`
when the sent slot is missing from the stored table or differs by more than
0.001; raises when the stored table is not a dict or a stored value is not
numeric (the loop runs outside the `try` block). -/
def slotMismatch (stored : JValue) (kv : String × ℚ) : Except PyErr Bool := do
  let sv ← pyGetOpt stored kv.1
  match sv with
  | none => Except.ok true
  | some v => do
    let q ← jNum v
    Except.ok (decide (|q - kv.2| > 1 / 1000))

/-- `_verify_tariff`: GET `site_info`, extract the stored buy-side rates and
compare them against the sent document's `energy_charges.Summer.rates` table
(the `buyRates` field).  Failures inside the `try` block return `False`;
the extraction and comparison run after it, so their exceptions propagate. -/
def _verify_tariff (rb : ReadbackResult) (sent_tariff : Tariff) :
    Except PyErr Bool :=
  match rb with
  | ReadbackResult.netError => Except.ok false
  | ReadbackResult.httpError _ => Except.ok false
  | ReadbackResult.jsonError => Except.ok false
  | ReadbackResult.okBody data => do
    let stored ← extractStored data
    let sent := sent_tariff.buyRates
    if jFalsy stored then Except.ok false
    else do
      let mismatches ← sent.mapM (slotMismatch stored)
      Except.ok (!mismatches.any id)

/-! ## Orchestrator: `async_handle_push_tou` -/

/-- The result-event record fired by `_fire_event` (site id masked to its
first four characters). -/
structure PushEvent where
  success : Bool
  site_id : String
  plan_name : String
  attempt_count : Nat
  error : Option String
deriving DecidableEq

/-- `_fire_event`: build the `tou_writer_push_result` event payload; the
`error` key is added only when the error string is truthy. -/
def _fire_event (site_id : String) (plan_name : Option String) (success : Bool)
    (attempt_count : Nat) (error : Option String) : PushEvent :=
  { success := success
    site_id := String.mk (site_id.data.take 4) ++ "***"
    plan_name := pyOrDefault plan_name
    attempt_count := attempt_count
    error := match error with
      | some e => if e = "" then none else some e
      | none => none }

/-- Effect of the handler on the persistent failure notification: dismissed on
success, created on delivery failure, untouched when the build fails. -/
inductive NotifAction where
  | dismissFailure
  | createFailure
  | keep
deriving DecidableEq

/-- `async_handle_push_tou`: build the tariff (a build error fires a failure
event with attempt count 0 and returns), push with retry, and on success run
readback verification — whose boolean result is only logged — then dismiss the
failure notification and fire a success event; on delivery failure create the
notification and fire a failure event.  An exception escaping
`_verify_tariff` propagates out of the handler. -/
def async_handle_push_tou (site_id : String) (plan_name : Option String)
    (rates : List Rate) (script : Nat → Bool × Int) (rb : ReadbackResult) :
    Except PyErr (PushEvent × NotifAction) :=
  match _build_tariff rates plan_name with
  | Except.error e =>
    Except.ok (_fire_event site_id plan_name false 0 (some e), NotifAction.keep)
  | Except.ok res =>
    let sr := (_send_with_retry script).1
    if sr.1 then
      match _verify_tariff rb res.tariff with
      | Except.error err => Except.error err
      | Except.ok _verified =>
        Except.ok (_fire_event site_id plan_name true sr.2 none,
          NotifAction.dismissFailure)
    else
      Except.ok (_fire_event site_id plan_name false sr.2
          (some ("Failed after " ++ Nat.repr sr.2 ++ " attempts")),
        NotifAction.createFailure)

/-! ## Auxiliary definitions used by the verification statements -/

/-- Does rate `r` stamp minute mark `M`?  True exactly when both time strings
parse and `M` lies in `[start, end')` at a 30-minute step from `start`, where
`end'` is the end minute with `00:00` reinterpreted as 1440. -/
def rateCovers (r : Rate) (M : Int) : Bool :=
  match _parse_time_to_minutes r.start with
  | Except.error _ => false
  | Except.ok s =>
    match _parse_time_to_minutes r.end_ with
    | Except.error _ => false
    | Except.ok e =>
      decide (s ≤ M) && decide (M < (if e = 0 then 1440 else e)) &&
        decide ((M - s) % 30 = 0)

/-- Total (exception-free) version of `stampRate`: a rate whose times fail to
parse stamps nothing.  Used to name the minute map that `minutePricesOf`
produces when all rates parse. -/
def stampRateT (acc : Int → Option (ℚ × ℚ)) (r : Rate) : Int → Option (ℚ × ℚ) :=
  match _parse_time_to_minutes r.start with
  | Except.error _ => acc
  | Except.ok s =>
    match _parse_time_to_minutes r.end_ with
    | Except.error _ => acc
    | Except.ok e => stampLoop (if e = 0 then 1440 else e) (ratePrices r) s acc

/-- Total version of the stamping fold. -/
def minuteMapT (rates : List Rate) (acc : Int → Option (ℚ × ℚ)) :
    Int → Option (ℚ × ℚ) :=
  rates.foldl stampRateT acc

/-- Mock transport returning HTTP 500 on attempts 1 and 2 and a clean 200 on
attempt 3. -/
def mock500 : Nat → HttpExchange :=
  fun n => if n ≤ 2 then HttpExchange.response 500 true else HttpExchange.response 200 true

/-- A concrete sent document used to exercise `_verify_tariff` at a failing
readback body. -/
def sampleTariff : Tariff :=
  { version := 1
    code := "TOU_WRITER:CUSTOM"
    name := DEFAULT_PLAN_NAME
    utility := "Custom"
    currency := "AUD"
    buyRates := [("PERIOD_00_00", (3 : ℚ) / 10)]
    touPeriods := []
    sell_tariff :=
      { name := DEFAULT_PLAN_NAME ++ " (Sell)"
        sellRates := [("PERIOD_00_00", (1 : ℚ) / 20)]
        touPeriods := [] } }

/-! ## Lemmas about the stamping loop and minute map -/

/-- Characterization of `stampLoop`: mark `x` carries prices `p` exactly when
it lies in `[m, e)` at a 30-minute step from `m`; otherwise the accumulated
map is unchanged. -/
theorem stampLoop_spec (p : ℚ × ℚ) (e : Int) :
    ∀ (k : Nat) (m : Int), (e - m).toNat = k →
      ∀ (acc : Int → Option (ℚ × ℚ)) (x : Int),
        stampLoop e p m acc x =
          if m ≤ x ∧ x < e ∧ (x - m) % 30 = 0 then some p else acc x := by
  intro k
  induction k using Nat.strong_induction_on with
  | _ k ih =>
    intro m hk acc x
    rw [stampLoop]
    by_cases hme : m < e
    · rw [if_pos hme, ih (e - (m + 30)).toNat (by omega) (m + 30) rfl]
      by_cases hx : x = m
      · have h30 : ¬(m + 30 ≤ x ∧ x < e ∧ (x - (m + 30)) % 30 = 0) := by omega
        rw [if_neg h30]
        show (if x = m then some p else acc x) = _
        rw [if_pos hx, if_pos (by omega)]
      · by_cases h2 : m + 30 ≤ x ∧ x < e ∧ (x - (m + 30)) % 30 = 0
        · rw [if_pos h2, if_pos (by omega)]
        · rw [if_neg h2]
          show (if x = m then some p else acc x) = _
          rw [if_neg hx, if_neg (by omega)]
    · rw [if_neg hme, if_neg (by omega)]

/-- `stampLoop` lookup in immediately applicable form. -/
theorem stampLoop_lookup (e : Int) (p : ℚ × ℚ) (m : Int)
    (acc : Int → Option (ℚ × ℚ)) (x : Int) :
    stampLoop e p m acc x =
      if m ≤ x ∧ x < e ∧ (x - m) % 30 = 0 then some p else acc x :=
  stampLoop_spec p e (e - m).toNat m rfl acc x

/-- A successful `timeOk` yields the parsed value. -/
theorem timeOk_ok {s : String} (h : timeOk s = true) :
    ∃ v, _parse_time_to_minutes s = Except.ok v := by
  unfold timeOk at h
  cases hp : _parse_time_to_minutes s with
  | ok v => exact ⟨v, rfl⟩
  | error e => rw [hp] at h; cases h

/-- Marks a single rate stamps: exactly those it covers. -/
theorem stampRateT_lookup (acc : Int → Option (ℚ × ℚ)) (r : Rate) (x : Int) :
    stampRateT acc r x =
      if rateCovers r x then some (ratePrices r) else acc x := by
  cases h1 : _parse_time_to_minutes r.start with
  | error e1 =>
    have hL : stampRateT acc r = acc := by unfold stampRateT; rw [h1]
    have hR : rateCovers r x = false := by unfold rateCovers; rw [h1]
    rw [hL, hR]
    simp
  | ok s =>
    cases h2 : _parse_time_to_minutes r.end_ with
    | error e2 =>
      have hL : stampRateT acc r = acc := by unfold stampRateT; rw [h1, h2]
      have hR : rateCovers r x = false := by unfold rateCovers; rw [h1, h2]
      rw [hL, hR]
      simp
    | ok e =>
      have hL : stampRateT acc r =
          stampLoop (if e = 0 then 1440 else e) (ratePrices r) s acc := by
        unfold stampRateT; rw [h1, h2]
      have hR : rateCovers r x =
          (decide (s ≤ x) && decide (x < (if e = 0 then 1440 else e)) &&
            decide ((x - s) % 30 = 0)) := by
        unfold rateCovers; rw [h1, h2]
      rw [hL, hR, stampLoop_lookup]
      by_cases hc : s ≤ x ∧ x < (if e = 0 then 1440 else e) ∧ (x - s) % 30 = 0
      · rw [if_pos hc, if_pos (by
          simp only [Bool.and_eq_true, decide_eq_true_eq]
          exact ⟨⟨hc.1, hc.2.1⟩, hc.2.2⟩)]
      · rw [if_neg hc, if_neg (by
          simp only [Bool.and_eq_true, decide_eq_true_eq]
          tauto)]

/-- When every rate in the list parses, the exception-propagating fold
`minutePricesOf` succeeds and returns the total fold `minuteMapT`. -/
theorem minutePricesOf_eq_ok :
    ∀ (rates : List Rate) (acc : Int → Option (ℚ × ℚ)),
      (∀ r ∈ rates, timeOk r.start = true ∧ timeOk r.end_ = true) →
      minutePricesOf rates acc = Except.ok (minuteMapT rates acc) := by
  intro rates
  induction rates with
  | nil => intro acc _; rfl
  | cons r rest ih =>
    intro acc h
    have hr := h r (List.mem_cons_self r rest)
    obtain ⟨s, hs⟩ := timeOk_ok hr.1
    obtain ⟨e, he⟩ := timeOk_ok hr.2
    have hstamp : stampRate acc r =
        Except.ok (stampRateT acc r) := by
      unfold stampRate stampRateT
      rw [hs, he]
    show (match stampRate acc r with
      | Except.error e => Except.error e
      | Except.ok acc' => minutePricesOf rest acc') = _
    rw [hstamp]
    have : minuteMapT (r :: rest) acc = minuteMapT rest (stampRateT acc r) := rfl
    rw [this]
    exact ih _ (fun r' hr' => h r' (List.mem_cons_of_mem r hr'))

/-- Rates that do not cover mark `M` leave it untouched. -/
theorem minuteMapT_nocover :
    ∀ (l : List Rate) (acc : Int → Option (ℚ × ℚ)) (M : Int),
      (∀ r ∈ l, rateCovers r M = false) → minuteMapT l acc M = acc M := by
  intro l
  induction l with
  | nil => intro acc M _; rfl
  | cons r rest ih =>
    intro acc M h
    show minuteMapT rest (stampRateT acc r) M = acc M
    rw [ih _ _ (fun r' hr' => h r' (List.mem_cons_of_mem r hr'))]
    rw [stampRateT_lookup, if_neg]
    rw [h r (List.mem_cons_self r rest)]
    simp

/-- A rate with an unparseable time string anywhere in the list makes the
stamping fold raise. -/
theorem minutePricesOf_error :
    ∀ (rates : List Rate) (acc : Int → Option (ℚ × ℚ)),
      (∃ r ∈ rates, timeOk r.start = false ∨ timeOk r.end_ = false) →
      ∃ e, minutePricesOf rates acc = Except.error e := by
  intro rates
  induction rates with
  | nil => intro acc h; obtain ⟨r, hr, _⟩ := h; cases hr
  | cons r rest ih =>
    intro acc h
    show ∃ e, (match stampRate acc r with
      | Except.error e => Except.error e
      | Except.ok acc' => minutePricesOf rest acc') = Except.error e
    cases hs : _parse_time_to_minutes r.start with
    | error e1 =>
      refine ⟨e1, ?_⟩
      have : stampRate acc r = Except.error e1 := by unfold stampRate; rw [hs]
      rw [this]
    | ok s =>
      cases he : _parse_time_to_minutes r.end_ with
      | error e2 =>
        refine ⟨e2, ?_⟩
        have : stampRate acc r = Except.error e2 := by
          unfold stampRate; rw [hs, he]
        rw [this]
      | ok e =>
        have hstamp : stampRate acc r = Except.ok (stampRateT acc r) := by
          unfold stampRate stampRateT; rw [hs, he]
        rw [hstamp]
        refine ih _ ?_
        obtain ⟨rb, hmem, hbad⟩ := h
        rcases List.mem_cons.mp hmem with heq | hmem'
        · subst heq
          exfalso
          have h1 : timeOk rb.start = true := by unfold timeOk; rw [hs]
          have h2 : timeOk rb.end_ = true := by unfold timeOk; rw [he]
          rcases hbad with hb | hb
          · rw [h1] at hb; cases hb
          · rw [h2] at hb; cases hb
        · exact ⟨rb, hmem', hbad⟩

/-! ## Lemmas about the transport and the retry loop -/

/-- `_send_to_teslemetry` reports success exactly when it reports status
200. -/
theorem send_link (x : HttpExchange) :
    (_send_to_teslemetry x).1 = decide ((_send_to_teslemetry x).2 = 200) := by
  cases x with
  | exception b => simp [_send_to_teslemetry]
  | response s bodyOk =>
    by_cases hs : s = 200 <;> cases bodyOk <;> simp [_send_to_teslemetry, hs]

/-- A successful attempt stops the loop with that attempt number and no extra
delay. -/
theorem retryLoop_success (script : Nat → Bool × Int) (attempt f : Nat)
    (delays : List Nat) (h : (script attempt).1 = true) :
    retryLoop script attempt (f + 1) delays = ((true, attempt), delays) := by
  rw [retryLoop]
  simp [h]

/-- A permanent-failure status stops the loop immediately with that attempt
number and no extra delay. -/
theorem retryLoop_permanent (script : Nat → Bool × Int) (attempt f : Nat)
    (delays : List Nat) (h1 : (script attempt).1 = false)
    (h2 : (script attempt).2 ∈ PERMANENT_FAILURE_CODES) :
    retryLoop script attempt (f + 1) delays = ((false, attempt), delays) := by
  rw [retryLoop]
  simp [h1, h2]

/-- A transient status (retriable set or 0) before the last attempt sleeps
`RETRY_DELAYS[attempt - 1]` and moves on to the next attempt. -/
theorem retryLoop_transient (script : Nat → Bool × Int) (attempt f : Nat)
    (delays : List Nat) (h1 : (script attempt).1 = false)
    (h2 : (script attempt).2 ∈ RETRIABLE_STATUS_CODES ∨ (script attempt).2 = 0)
    (h3 : attempt ≠ MAX_RETRIES) :
    retryLoop script attempt (f + 1) delays =
      retryLoop script (attempt + 1) f
        (delays ++ [RETRY_DELAYS.getD (attempt - 1) 0]) := by
  have hnp : (script attempt).2 ∉ PERMANENT_FAILURE_CODES := by
    simp only [RETRIABLE_STATUS_CODES, PERMANENT_FAILURE_CODES,
      List.mem_cons, List.not_mem_nil, or_false] at h2 ⊢
    omega
  rw [retryLoop]
  by_cases h429 : (script attempt).2 = 429
  · have hn429 : (429 : Int) ∉ PERMANENT_FAILURE_CODES := by decide
    simp [h1, h3, h429, hn429]
  · simp [h1, hnp, h3, h429, h2]

/-- On the last attempt, a non-successful non-permanent status falls out of
the loop with `(False, MAX_RETRIES)` and no further delay. -/
theorem retryLoop_last (script : Nat → Bool × Int) (f : Nat)
    (delays : List Nat) (h1 : (script MAX_RETRIES).1 = false)
    (h2 : (script MAX_RETRIES).2 ∉ PERMANENT_FAILURE_CODES) :
    retryLoop script MAX_RETRIES (f + 1) delays =
      ((false, MAX_RETRIES), delays) := by
  rw [retryLoop]
  simp [h1, h2]

/-- A status that is neither 200, nor permanent, nor transient stops the loop
immediately with that attempt number and no extra delay. -/
theorem retryLoop_other (script : Nat → Bool × Int) (attempt f : Nat)
    (delays : List Nat) (h1 : (script attempt).1 = false)
    (h2 : (script attempt).2 ∉ PERMANENT_FAILURE_CODES)
    (h3 : ¬((script attempt).2 ∈ RETRIABLE_STATUS_CODES ∨ (script attempt).2 = 0)) :
    retryLoop script attempt (f + 1) delays = ((false, attempt), delays) := by
  rw [retryLoop]
  by_cases hm : attempt = MAX_RETRIES
  · subst hm
    simp [h1, h2]
  · have h429 : (script attempt).2 ≠ 429 := by
      intro h
      exact h3 (Or.inl (by rw [h]; simp [RETRIABLE_STATUS_CODES]))
    simp [h1, h2, hm, h429, h3]

/-! ## Lemmas about characters, stripping and splitting -/

/-- A decimal digit character is neither whitespace nor a colon. -/
theorem digit_not_ws_colon (c : Char) (h : c.isDigit = true) :
    c.isWhitespace = false ∧ c ≠ ':' := by
  constructor
  · cases hw : c.isWhitespace
    · rfl
    · exfalso
      simp only [Char.isWhitespace, Bool.or_eq_true, decide_eq_true_eq] at hw
      rcases hw with (((h1 | h1) | h1) | h1) <;> subst h1 <;>
        exact absurd h (by decide)
  · intro he
    subst he
    exact absurd h (by decide)

/-- Every character of an integer-literal string is neither whitespace nor a
colon. -/
theorem intLit_chars (l : List Char) (h : intLit l = true) :
    ∀ c ∈ l, c.isWhitespace = false ∧ c ≠ ':' := by
  intro c hc
  cases l with
  | nil => cases hc
  | cons c0 t =>
    by_cases hsign : c0 = '+' ∨ c0 = '-'
    · rw [intLit, if_pos hsign] at h
      simp only [Bool.and_eq_true] at h
      rcases List.mem_cons.mp hc with heq | hmem
      · subst heq
        rcases hsign with h1 | h1 <;> subst h1 <;> exact ⟨rfl, by decide⟩
      · exact digit_not_ws_colon c (by
          have := List.all_eq_true.mp h.2
          simpa using this c hmem)
    · rw [intLit, if_neg hsign] at h
      have := List.all_eq_true.mp h
      exact digit_not_ws_colon c (by simpa using this c hc)

/-- `dropWhile` is the identity on a list none of whose elements satisfy the
predicate. -/
theorem dropWhile_id_of_not {α : Type} (p : α → Bool) (l : List α)
    (h : ∀ c ∈ l, p c = false) : l.dropWhile p = l := by
  cases l with
  | nil => rfl
  | cons c t =>
    rw [List.dropWhile_cons, if_neg]
    rw [h c (List.mem_cons_self c t)]
    simp

/-- `pyStrip` is the identity on a whitespace-free list. -/
theorem pyStrip_eq_self (l : List Char)
    (h : ∀ c ∈ l, c.isWhitespace = false) : pyStrip l = l := by
  unfold pyStrip
  rw [dropWhile_id_of_not _ _ h,
    dropWhile_id_of_not _ _ (fun c hc => h c (List.mem_reverse.mp hc)),
    List.reverse_reverse]

/-- Splitting a colon-free list yields the single piece. -/
theorem splitColon_no_colon :
    ∀ l : List Char, (∀ c ∈ l, c ≠ ':') → splitColon l = [l] := by
  intro l
  induction l with
  | nil => intro _; rfl
  | cons c t ih =>
    intro h
    have hc : ¬(c = ':') := h c (List.mem_cons_self c t)
    have ht := ih (fun c' hc' => h c' (List.mem_cons_of_mem c hc'))
    simp only [splitColon, ht, if_neg hc]

/-- Splitting a list with exactly one colon yields the two surrounding
pieces. -/
theorem splitColon_append (a b : List Char) (ha : ∀ c ∈ a, c ≠ ':')
    (hb : ∀ c ∈ b, c ≠ ':') : splitColon (a ++ ':' :: b) = [a, b] := by
  induction a with
  | nil =>
    simp [splitColon, splitColon_no_colon b hb]
  | cons c t ih =>
    have hc : ¬(c = ':') := ha c (List.mem_cons_self c t)
    simp only [List.cons_append, splitColon, if_neg hc]
    rw [List.append_eq, ih (fun c' h' => ha c' (List.mem_cons_of_mem c h'))]

/-! ## Lemmas about document assembly -/

/-- `filterMap` only depends on the function's values on the list. -/
theorem filterMap_congr_on {α β : Type} (l : List α) (f g : α → Option β)
    (h : ∀ a ∈ l, f a = g a) : l.filterMap f = l.filterMap g := by
  induction l with
  | nil => rfl
  | cons a t ih =>
    rw [List.filterMap_cons, List.filterMap_cons, h a (List.mem_cons_self a t),
      ih (fun a' ha' => h a' (List.mem_cons_of_mem a ha'))]

/-- The slot-grid phase reads the minute map only at the 48 slot-start
minutes, all of which lie in `[0, 1440)`: maps agreeing there assemble to the
same document and warnings. -/
theorem assembleTariff_congr (mp1 mp2 : Int → Option (ℚ × ℚ))
    (pn : Option String)
    (h : ∀ x : Int, 0 ≤ x → x < 1440 → mp1 x = mp2 x) :
    assembleTariff mp1 pn = assembleTariff mp2 pn := by
  have hmp : ∀ slot ∈ List.range 48, mp1 (30 * (slot : Int)) = mp2 (30 * (slot : Int)) := by
    intro slot hslot
    have hs48 : slot < 48 := List.mem_range.mp hslot
    exact h (30 * (slot : Int)) (by omega) (by omega)
  have hsp : ∀ slot ∈ List.range 48, slotPrices mp1 slot = slotPrices mp2 slot := by
    intro slot hslot
    unfold slotPrices
    rw [hmp slot hslot]
  have hsw : ∀ slot ∈ List.range 48, slotWarning mp1 slot = slotWarning mp2 slot := by
    intro slot hslot
    unfold slotWarning
    rw [hmp slot hslot]
  have hbuy : List.map (fun slot => (slotKey slot, (slotPrices mp1 slot).1))
        (List.range 48)
      = List.map (fun slot => (slotKey slot, (slotPrices mp2 slot).1))
        (List.range 48) :=
    List.map_congr_left (fun a ha => by simp only [hsp a ha])
  have hsell : List.map (fun slot => (slotKey slot, (slotPrices mp1 slot).2))
        (List.range 48)
      = List.map (fun slot => (slotKey slot, (slotPrices mp2 slot).2))
        (List.range 48) :=
    List.map_congr_left (fun a ha => by simp only [hsp a ha])
  have hwar : List.filterMap (fun slot => slotWarning mp1 slot) (List.range 48)
      = List.filterMap (fun slot => slotWarning mp2 slot) (List.range 48) :=
    filterMap_congr_on _ _ _ (fun a ha => hsw a ha)
  simp only [assembleTariff]
  rw [hbuy, hsell, hwar]

/-- The 48 canonical slot keys are pairwise distinct. -/
theorem slotKeys_nodup : slotKeys.Nodup := by decide

/-- `slotKey` is injective on slot indices below 48. -/
theorem slotKey_inj : ∀ a, a < 48 → ∀ b, b < 48 → slotKey a = slotKey b → a = b := by
  decide

/-- When all rates parse, `_build_tariff` succeeds and assembles the document
from the total minute map. -/
theorem build_ok (rates : List Rate) (pn : Option String)
    (hok : ∀ r ∈ rates, timeOk r.start = true ∧ timeOk r.end_ = true) :
    _build_tariff rates pn =
      Except.ok (assembleTariff (minuteMapT rates (fun _ => none)) pn) := by
  unfold _build_tariff
  rw [minutePricesOf_eq_ok rates _ hok]

/-- The total stamping fold splits over list concatenation. -/
theorem minuteMapT_append (l1 l2 : List Rate) (acc : Int → Option (ℚ × ℚ)) :
    minuteMapT (l1 ++ l2) acc = minuteMapT l2 (minuteMapT l1 acc) := by
  unfold minuteMapT
  rw [List.foldl_append]

/-- The total stamping fold on the empty rate list. -/
theorem minuteMapT_nil (acc : Int → Option (ℚ × ℚ)) :
    minuteMapT [] acc = acc := rfl

/-- One step of the total stamping fold. -/
theorem minuteMapT_cons (r : Rate) (rest : List Rate)
    (acc : Int → Option (ℚ × ℚ)) :
    minuteMapT (r :: rest) acc = minuteMapT rest (stampRateT acc r) := rfl

/-! ## Claim theorems -/

/-- The buy-side rate table of the assembled document, unfolded. -/
theorem assembleTariff_buyRates (mp : Int → Option (ℚ × ℚ)) (pn : Option String) :
    (assembleTariff mp pn).tariff.buyRates =
      (List.range 48).map (fun slot => (slotKey slot, (slotPrices mp slot).1)) := rfl

/-- The sell-side rate table of the assembled document, unfolded. -/
theorem assembleTariff_sellRates (mp : Int → Option (ℚ × ℚ)) (pn : Option String) :
    (assembleTariff mp pn).tariff.sell_tariff.sellRates =
      (List.range 48).map (fun slot => (slotKey slot, (slotPrices mp slot).2)) := rfl

/-- The warning diagnostics of the assembled document, unfolded. -/
theorem assembleTariff_warnings (mp : Int → Option (ℚ × ℚ)) (pn : Option String) :
    (assembleTariff mp pn).warnings =
      (List.range 48).filterMap (fun slot => slotWarning mp slot) := rfl

/-- A covered slot takes its stamped prices. -/
theorem slotPrices_of_some (mp : Int → Option (ℚ × ℚ)) (slot : Nat) (p : ℚ × ℚ)
    (h : mp (30 * (slot : Int)) = some p) : slotPrices mp slot = p := by
  unfold slotPrices
  rw [h]

/-- An uncovered slot defaults to zero prices. -/
theorem slotPrices_of_none (mp : Int → Option (ℚ × ℚ)) (slot : Nat)
    (h : mp (30 * (slot : Int)) = none) : slotPrices mp slot = (0, 0) := by
  unfold slotPrices
  rw [h]

/-- A covered slot emits no warning. -/
theorem slotWarning_of_some (mp : Int → Option (ℚ × ℚ)) (slot : Nat) (p : ℚ × ℚ)
    (h : mp (30 * (slot : Int)) = some p) : slotWarning mp slot = none := by
  unfold slotWarning
  rw [h]

/-- An uncovered slot emits its warning diagnostic. -/
theorem slotWarning_of_none (mp : Int → Option (ℚ × ℚ)) (slot : Nat)
    (h : mp (30 * (slot : Int)) = none) :
    slotWarning mp slot = some (slotKey slot) := by
  unfold slotWarning
  rw [h]

/-- C1: for every non-empty list of rate periods whose start/end strings
parse, `_build_tariff` succeeds and its buy-side and sell-side rate tables
each contain exactly 48 entries, keyed exactly by the canonical slot keys
(which are pairwise distinct); every slot whose start minute is not stamped
gets price 0 in both tables together with a warning diagnostic, and covered
slots get no warning. -/
theorem claim_C1_full_grid (rates : List Rate) (pn : Option String)
    (_hne : 0 < rates.length)
    (hok : ∀ r ∈ rates, timeOk r.start = true ∧ timeOk r.end_ = true) :
    ∃ mp res,
      minutePricesOf rates (fun _ => none) = Except.ok mp ∧
      _build_tariff rates pn = Except.ok res ∧
      res.tariff.buyRates.map Prod.fst = slotKeys ∧
      res.tariff.sell_tariff.sellRates.map Prod.fst = slotKeys ∧
      res.tariff.buyRates.length = 48 ∧
      res.tariff.sell_tariff.sellRates.length = 48 ∧
      slotKeys.Nodup ∧
      (∀ slot : Nat, slot < 48 → mp (30 * (slot : Int)) = none →
        (slotKey slot, (0 : ℚ)) ∈ res.tariff.buyRates ∧
        (slotKey slot, (0 : ℚ)) ∈ res.tariff.sell_tariff.sellRates ∧
        slotKey slot ∈ res.warnings) ∧
      (∀ slot : Nat, slot < 48 → mp (30 * (slot : Int)) ≠ none →
        slotKey slot ∉ res.warnings) := by
  refine ⟨minuteMapT rates (fun _ => none),
    assembleTariff (minuteMapT rates (fun _ => none)) pn,
    minutePricesOf_eq_ok rates _ hok, build_ok rates pn hok, ?_, ?_, ?_, ?_,
    slotKeys_nodup, ?_, ?_⟩
  · rw [assembleTariff_buyRates, List.map_map]
    rfl
  · rw [assembleTariff_sellRates, List.map_map]
    rfl
  · rw [assembleTariff_buyRates, List.length_map, List.length_range]
  · rw [assembleTariff_sellRates, List.length_map, List.length_range]
  · intro slot hs hnone
    have hval : slotPrices (minuteMapT rates (fun _ => none)) slot = (0, 0) := by
      unfold slotPrices
      rw [hnone]
    refine ⟨?_, ?_, ?_⟩
    · rw [assembleTariff_buyRates]
      exact List.mem_map.mpr ⟨slot, List.mem_range.mpr hs, by rw [hval]⟩
    · rw [assembleTariff_sellRates]
      exact List.mem_map.mpr ⟨slot, List.mem_range.mpr hs, by rw [hval]⟩
    · rw [assembleTariff_warnings]
      refine List.mem_filterMap.mpr ⟨slot, List.mem_range.mpr hs, ?_⟩
      show slotWarning _ slot = some (slotKey slot)
      unfold slotWarning
      rw [hnone]
  · intro slot hs hsome hmem
    rw [assembleTariff_warnings] at hmem
    obtain ⟨a, ha, hwa⟩ := List.mem_filterMap.mp hmem
    have ha48 : a < 48 := List.mem_range.mp ha
    unfold slotWarning at hwa
    cases hmpa : minuteMapT rates (fun _ => none) (30 * (a : Int)) with
    | some p => rw [hmpa] at hwa; cases hwa
    | none =>
      rw [hmpa] at hwa
      have hkey : slotKey a = slotKey slot := by
        injection hwa
      have heq : a = slot := slotKey_inj a ha48 slot hs hkey
      subst heq
      exact hsome hmpa

/-- C3: a single rate period from "00:00" to "00:00" expands to the whole
day: the end is reinterpreted as minute 1440, so all 48 slots of the built
document carry its (rounded) buy and sell dollar prices, with no warning
diagnostics. -/
theorem claim_C3_full_day_rate (buy sell : ℚ) (pn : Option String) :
    ∃ res,
      _build_tariff [⟨"00:00", "00:00", buy, sell⟩] pn = Except.ok res ∧
      res.tariff.buyRates =
        (List.range 48).map (fun slot => (slotKey slot, round6 (buy / 100))) ∧
      res.tariff.sell_tariff.sellRates =
        (List.range 48).map (fun slot => (slotKey slot, round6 (sell / 100))) ∧
      res.warnings = [] := by
  have hok : ∀ r ∈ [(⟨"00:00", "00:00", buy, sell⟩ : Rate)],
      timeOk r.start = true ∧ timeOk r.end_ = true := by
    intro r hr
    rcases List.mem_singleton.mp hr with rfl
    exact ⟨(by decide : timeOk "00:00" = true), (by decide : timeOk "00:00" = true)⟩
  have hp : _parse_time_to_minutes "00:00" = Except.ok 0 := by rfl
  have hps : _parse_time_to_minutes
      (⟨"00:00", "00:00", buy, sell⟩ : Rate).start = Except.ok 0 := hp
  have hrc : ∀ x : Int, rateCovers ⟨"00:00", "00:00", buy, sell⟩ x =
      (decide ((0 : Int) ≤ x) && decide (x < 1440) &&
        decide ((x - 0) % 30 = 0)) := by
    intro x
    unfold rateCovers
    rw [hps]
    rfl
  have hmp : ∀ x : Int,
      minuteMapT [⟨"00:00", "00:00", buy, sell⟩] (fun _ => none) x =
        if 0 ≤ x ∧ x < 1440 ∧ x % 30 = 0
        then some (ratePrices ⟨"00:00", "00:00", buy, sell⟩) else none := by
    intro x
    rw [minuteMapT_cons, minuteMapT_nil, stampRateT_lookup, hrc x]
    by_cases hc : (0 : Int) ≤ x ∧ x < 1440 ∧ x % 30 = 0
    · rw [if_pos (by
        simp only [Bool.and_eq_true, decide_eq_true_eq]
        omega), if_pos hc]
    · rw [if_neg (by
        simp only [Bool.and_eq_true, decide_eq_true_eq]
        omega), if_neg hc]
  have hsome : ∀ slot : Nat, slot < 48 →
      minuteMapT [⟨"00:00", "00:00", buy, sell⟩] (fun _ => none)
          (30 * (slot : Int)) =
        some (ratePrices ⟨"00:00", "00:00", buy, sell⟩) := by
    intro slot hs48
    rw [hmp (30 * (slot : Int)), if_pos (by omega)]
  have hcov : ∀ slot ∈ List.range 48,
      slotPrices (minuteMapT [⟨"00:00", "00:00", buy, sell⟩] (fun _ => none)) slot
        = ratePrices ⟨"00:00", "00:00", buy, sell⟩ := by
    intro slot hslot
    exact slotPrices_of_some _ _ _ (hsome slot (List.mem_range.mp hslot))
  refine ⟨_, build_ok _ pn hok, ?_, ?_, ?_⟩
  · rw [assembleTariff_buyRates]
    refine List.map_congr_left ?_
    intro a ha
    rw [hcov a ha]
    rfl
  · rw [assembleTariff_sellRates]
    refine List.map_congr_left ?_
    intro a ha
    rw [hcov a ha]
    rfl
  · rw [assembleTariff_warnings]
    refine List.filterMap_eq_nil_iff.mpr ?_
    intro a ha
    exact slotWarning_of_some _ _ _ (hsome a (List.mem_range.mp ha))

/-- C6: when several rate periods cover the same 30-minute mark, the one
appearing latest in the input list determines the stamped buy and sell prices
for that mark in the built document: if `r` covers a slot's start minute and
no later rate does, the slot carries `r`'s prices. -/
theorem claim_C6_later_rate_wins (pre post : List Rate) (r : Rate)
    (pn : Option String) (slot : Nat) (hs : slot < 48)
    (hok : ∀ x ∈ pre ++ r :: post, timeOk x.start = true ∧ timeOk x.end_ = true)
    (hcov : rateCovers r (30 * (slot : Int)) = true)
    (hafter : ∀ x ∈ post, rateCovers x (30 * (slot : Int)) = false) :
    ∃ res,
      _build_tariff (pre ++ r :: post) pn = Except.ok res ∧
      (slotKey slot, (ratePrices r).1) ∈ res.tariff.buyRates ∧
      (slotKey slot, (ratePrices r).2) ∈ res.tariff.sell_tariff.sellRates := by
  refine ⟨_, build_ok _ pn hok, ?_, ?_⟩
  all_goals {
    have hmp : minuteMapT (pre ++ r :: post) (fun _ => none)
        (30 * (slot : Int)) = some (ratePrices r) := by
      have hsplit : pre ++ r :: post = (pre ++ [r]) ++ post := by simp
      rw [hsplit, minuteMapT_append,
        minuteMapT_nocover post _ _ hafter,
        minuteMapT_append, minuteMapT_cons, minuteMapT_nil,
        stampRateT_lookup, if_pos hcov]
    have hval := slotPrices_of_some _ _ _ hmp
    first
    | (rw [assembleTariff_buyRates]
       exact List.mem_map.mpr ⟨slot, List.mem_range.mpr hs, by rw [hval]⟩)
    | (rw [assembleTariff_sellRates]
       exact List.mem_map.mpr ⟨slot, List.mem_range.mpr hs, by rw [hval]⟩)
  }

/-- C8 counterexample: `_build_tariff` on the empty rate list does not fail —
it returns a document (all slots default to price 0), so the claim that an
empty rates sequence makes build fail with a validation error is false. -/
theorem claim_C8_cex : buildSucceeds [] none = true := by decide

/-- C8 (amended): `_build_tariff` fails with a `ValueError` (and produces no
document) whenever some rate period's start or end string is not parseable as
HH:MM; an empty rates sequence is not rejected by the builder itself — it is
rejected upstream by the service schema's minimum-length rule. -/
theorem claim_C8_validation_amended :
    (∀ (rates : List Rate) (pn : Option String),
      (∃ r ∈ rates, timeOk r.start = false ∨ timeOk r.end_ = false) →
      ∃ e, _build_tariff rates pn = Except.error e) ∧
    serviceRatesAccepted [] = false := by
  refine ⟨?_, by decide⟩
  intro rates pn hbad
  obtain ⟨e, he⟩ := minutePricesOf_error rates (fun _ => none) hbad
  refine ⟨e, ?_⟩
  unfold _build_tariff
  rw [he]

/-- C8 witness: a rate list containing an unparseable start time "7am" makes
the builder fail. -/
theorem claim_C8_witness :
    ∃ e, _build_tariff [⟨"7am", "09:00", 1, 1⟩] none = Except.error e :=
  claim_C8_validation_amended.1 [⟨"7am", "09:00", 1, 1⟩] none
    ⟨⟨"7am", "09:00", 1, 1⟩, List.mem_cons_self _ _, Or.inl (by decide)⟩

/-- C2: per-attempt status classification of `_send_with_retry` driven by
`_send_to_teslemetry` outcomes.  At any loop state with fuel left: a 200
status stops with success at that attempt; 400, 401 or 403 stops immediately
as a permanent failure; a status in {429, 500, 502, 503, 504} or 0 before the
last attempt sleeps one backoff delay and retries; any other status stops
immediately as a permanent failure.  `_send_with_retry` itself is the loop
started at attempt 1 with `MAX_RETRIES` iterations. -/
theorem claim_C2_status_classification (ex : Nat → HttpExchange)
    (attempt f : Nat) (delays : List Nat) :
    (_send_with_retry (fun n => _send_to_teslemetry (ex n)) =
      retryLoop (fun n => _send_to_teslemetry (ex n)) 1 MAX_RETRIES []) ∧
    ((_send_to_teslemetry (ex attempt)).2 = 200 →
      retryLoop (fun n => _send_to_teslemetry (ex n)) attempt (f + 1) delays =
        ((true, attempt), delays)) ∧
    ((_send_to_teslemetry (ex attempt)).2 ∈ PERMANENT_FAILURE_CODES →
      retryLoop (fun n => _send_to_teslemetry (ex n)) attempt (f + 1) delays =
        ((false, attempt), delays)) ∧
    (((_send_to_teslemetry (ex attempt)).2 ∈ RETRIABLE_STATUS_CODES ∨
        (_send_to_teslemetry (ex attempt)).2 = 0) →
      attempt < MAX_RETRIES →
      retryLoop (fun n => _send_to_teslemetry (ex n)) attempt (f + 1) delays =
        retryLoop (fun n => _send_to_teslemetry (ex n)) (attempt + 1) f
          (delays ++ [RETRY_DELAYS.getD (attempt - 1) 0])) ∧
    ((_send_to_teslemetry (ex attempt)).2 ≠ 200 →
      (_send_to_teslemetry (ex attempt)).2 ∉ PERMANENT_FAILURE_CODES →
      (_send_to_teslemetry (ex attempt)).2 ∉ RETRIABLE_STATUS_CODES →
      (_send_to_teslemetry (ex attempt)).2 ≠ 0 →
      retryLoop (fun n => _send_to_teslemetry (ex n)) attempt (f + 1) delays =
        ((false, attempt), delays)) := by
  have hlink : ((fun n => _send_to_teslemetry (ex n)) attempt).1 =
      decide (((fun n => _send_to_teslemetry (ex n)) attempt).2 = 200) :=
    send_link (ex attempt)
  refine ⟨rfl, ?_, ?_, ?_, ?_⟩
  · intro h200
    refine retryLoop_success _ attempt f delays ?_
    rw [hlink, h200]
    decide
  · intro hperm
    have hne200 : (_send_to_teslemetry (ex attempt)).2 ≠ 200 := by
      simp only [PERMANENT_FAILURE_CODES, List.mem_cons,
        List.not_mem_nil, or_false] at hperm
      omega
    refine retryLoop_permanent _ attempt f delays ?_ hperm
    rw [hlink]
    simp [hne200]
  · intro htrans hlt
    have hne200 : (_send_to_teslemetry (ex attempt)).2 ≠ 200 := by
      rcases htrans with h | h
      · simp only [RETRIABLE_STATUS_CODES, List.mem_cons,
          List.not_mem_nil, or_false] at h
        omega
      · omega
    refine retryLoop_transient _ attempt f delays ?_ htrans (by omega)
    rw [hlink]
    simp [hne200]
  · intro hne200 hnp hnr hn0
    refine retryLoop_other _ attempt f delays ?_ hnp ?_
    · rw [hlink]
      simp [hne200]
    · intro h
      rcases h with h | h
      · exact hnr h
      · exact hn0 h

/-- C2 witness: a transport answering HTTP 401 on the first attempt stops the
loop immediately as a permanent failure with attempt count 1 and no delay. -/
theorem claim_C2_witness :
    retryLoop (fun _ => _send_to_teslemetry (HttpExchange.response 401 true))
        1 3 [] = ((false, 1), []) :=
  (claim_C2_status_classification (fun _ => HttpExchange.response 401 true)
    1 2 []).2.2.1 (by decide)

/-- C5: the backoff schedule is the fixed list [2, 4, 8] seconds indexed by
the failing attempt; a transport failing transiently on every attempt
exhausts all 3 attempts, returns `(False, 3)` and sleeps exactly 2s then 4s
(no delay after the final attempt); the mock 500,500,200 transport succeeds
on attempt 3 after exactly the delays 2s and 4s. -/
theorem claim_C5_backoff_schedule :
    RETRY_DELAYS = [2, 4, 8] ∧
    (∀ ex : Nat → HttpExchange,
      (∀ n, 1 ≤ n → n ≤ MAX_RETRIES →
        ((_send_to_teslemetry (ex n)).2 ∈ RETRIABLE_STATUS_CODES ∨
          (_send_to_teslemetry (ex n)).2 = 0)) →
      _send_with_retry (fun n => _send_to_teslemetry (ex n)) =
        ((false, 3), [2, 4])) ∧
    _send_with_retry (fun n => _send_to_teslemetry (mock500 n)) =
      ((true, 3), [2, 4]) := by
  refine ⟨rfl, ?_, by decide⟩
  intro ex h
  have hfalse : ∀ n, 1 ≤ n → n ≤ MAX_RETRIES →
      ((fun n => _send_to_teslemetry (ex n)) n).1 = false := by
    intro n h1 h3
    have ht := h n h1 h3
    have hne200 : (_send_to_teslemetry (ex n)).2 ≠ 200 := by
      rcases ht with hh | hh
      · simp only [RETRIABLE_STATUS_CODES, List.mem_cons,
          List.not_mem_nil, or_false] at hh
        omega
      · omega
    rw [send_link (ex n)]
    simp [hne200]
  have hnp : ∀ n, 1 ≤ n → n ≤ MAX_RETRIES →
      ((fun n => _send_to_teslemetry (ex n)) n).2 ∉ PERMANENT_FAILURE_CODES := by
    intro n h1 h3
    have ht := h n h1 h3
    simp only [RETRIABLE_STATUS_CODES, PERMANENT_FAILURE_CODES, List.mem_cons,
      List.not_mem_nil, or_false] at ht ⊢
    omega
  show retryLoop (fun n => _send_to_teslemetry (ex n)) 1 MAX_RETRIES [] =
    ((false, 3), [2, 4])
  calc retryLoop (fun n => _send_to_teslemetry (ex n)) 1 MAX_RETRIES []
      = retryLoop (fun n => _send_to_teslemetry (ex n)) 2 2
          ([] ++ [RETRY_DELAYS.getD 0 0]) :=
        retryLoop_transient _ 1 2 [] (hfalse 1 (by decide) (by decide))
          (h 1 (by decide) (by decide)) (by decide)
    _ = retryLoop (fun n => _send_to_teslemetry (ex n)) 3 1
          ([2] ++ [RETRY_DELAYS.getD 1 0]) :=
        retryLoop_transient _ 2 1 [2] (hfalse 2 (by decide) (by decide))
          (h 2 (by decide) (by decide)) (by decide)
    _ = ((false, 3), [2, 4]) :=
        retryLoop_last _ 0 [2, 4] (hfalse 3 (by decide) (by decide))
          (hnp 3 (by decide) (by decide))

/-- C5 witness: a transport answering 503 on every attempt fails after all
3 attempts with exactly the delays 2s and 4s. -/
theorem claim_C5_witness :
    _send_with_retry
        (fun _ => _send_to_teslemetry (HttpExchange.response 503 true)) =
      ((false, 3), [2, 4]) := by
  have h503 : (503 : Int) ∈ RETRIABLE_STATUS_CODES := by decide
  exact claim_C5_backoff_schedule.2.1 (fun _ => HttpExchange.response 503 true)
    (fun n _ _ => Or.inl h503)

/-- C7 counterexample: an HTTP response that *was* received (status 200) but
whose body could not be read as JSON still yields `(False, 0)`, so status 0 is
not returned only when no HTTP response was received. -/
theorem claim_C7_cex :
    _send_to_teslemetry (HttpExchange.response 200 false) = (false, 0) := rfl

/-- C7 (amended): the transport returns `(False, 0)` exactly on the exchanges
with no *usable* response — any exception, whether or not classified as a
network fault, including failures while reading/parsing the body of a
response that did arrive — or on the degenerate case of a server literally
answering status 0 with a readable body. -/
theorem claim_C7_status_zero_amended (x : HttpExchange) :
    _send_to_teslemetry x = (false, 0) ↔
      (noUsableResponse x = true ∨ x = HttpExchange.response 0 true) := by
  cases x with
  | exception b => simp [_send_to_teslemetry, noUsableResponse]
  | response s bodyOk =>
    cases bodyOk with
    | false =>
      by_cases hs : s = 200 <;>
        simp [_send_to_teslemetry, noUsableResponse, hs]
    | true =>
      by_cases hs : s = 200 <;>
        simp [_send_to_teslemetry, noUsableResponse, hs]

/-- C4: the claim that `_verify_tariff` never raises on a malformed readback
body is contradicted by the code: a 200 response whose JSON body is a list
(not an object) makes the extraction `data.get("response", {})` — which runs
outside the `try` block — raise `AttributeError` instead of returning
`False`. -/
theorem claim_C4_verify_raises_on_malformed_body :
    _verify_tariff (ReadbackResult.okBody (JValue.arr [])) sampleTariff =
      Except.error PyErr.attributeError := rfl

/-- C9: in the orchestrated push, whenever `_send_with_retry` reports success
the handler's outcome is a success event carrying that attempt count (and a
dismissed failure notification), regardless of whether readback verification
returns true or false — verification is advisory and never flips the
outcome. -/
theorem claim_C9_verification_advisory (site_id : String)
    (plan_name : Option String) (rates : List Rate)
    (script : Nat → Bool × Int) (rb : ReadbackResult)
    (hbuild : buildSucceeds rates plan_name = true)
    (hsend : (_send_with_retry script).1.1 = true)
    (hverify : ∀ t : Tariff, ∃ v, _verify_tariff rb t = Except.ok v) :
    async_handle_push_tou site_id plan_name rates script rb =
      Except.ok
        (_fire_event site_id plan_name true (_send_with_retry script).1.2 none,
          NotifAction.dismissFailure) := by
  unfold async_handle_push_tou
  cases hb : _build_tariff rates plan_name with
  | error e =>
    unfold buildSucceeds at hbuild
    rw [hb] at hbuild
    cases hbuild
  | ok res =>
    obtain ⟨v, hv⟩ := hverify res.tariff
    simp only [hsend, hv, if_true]

/-- C9 witness: with an always-200 transport and a readback that fails at the
network level (so verification returns false), the handler still reports
success with attempt count 1. -/
theorem claim_C9_witness :
    async_handle_push_tou "1234567" none []
        (fun _ => (true, 200)) ReadbackResult.netError =
      Except.ok
        (_fire_event "1234567" none true
          (_send_with_retry (fun _ => (true, 200))).1.2 none,
          NotifAction.dismissFailure) :=
  claim_C9_verification_advisory "1234567" none [] (fun _ => (true, 200))
    ReadbackResult.netError (by decide) (by decide)
    (fun t => ⟨false, rfl⟩)

/-- C10: the range check in `_parse_time_to_minutes` is inert.  Any string of
the form `<integer>:<integer>` parses to `hours * 60 + mins` even when the
hour is outside [0, 23] or the minute outside [0, 59]; `_build_tariff`
accepts any list of rates whose times parse, without error; and the slot grid
reads the stamped minute map only at marks in [0, 1440), so marks at or above
1440 (or below 0) stamped from such inputs never influence the document or
its warnings. -/
theorem claim_C10_inert_range_check :
    (∀ (hs ms : List Char) (h m : Int), intLit hs = true → intLit ms = true →
      pyInt hs = some h → pyInt ms = some m →
      _parse_time_to_minutes ⟨hs ++ ':' :: ms⟩ = Except.ok (h * 60 + m)) ∧
    (∀ (rates : List Rate) (pn : Option String),
      (∀ r ∈ rates, timeOk r.start = true ∧ timeOk r.end_ = true) →
      ∃ res, _build_tariff rates pn = Except.ok res) ∧
    (∀ (mp1 mp2 : Int → Option (ℚ × ℚ)) (pn : Option String),
      (∀ x : Int, 0 ≤ x → x < 1440 → mp1 x = mp2 x) →
      assembleTariff mp1 pn = assembleTariff mp2 pn) := by
  refine ⟨?_, ?_, ?_⟩
  · intro hs ms h m hlh hlm hph hpm
    have hch := intLit_chars hs hlh
    have hcm := intLit_chars ms hlm
    have hall : ∀ c ∈ hs ++ ':' :: ms, c.isWhitespace = false := by
      intro c hc
      rcases List.mem_append.mp hc with h1 | h1
      · exact (hch c h1).1
      · rcases List.mem_cons.mp h1 with h2 | h2
        · subst h2
          decide
        · exact (hcm c h2).1
    have hstrip : pyStrip (hs ++ ':' :: ms) = hs ++ ':' :: ms :=
      pyStrip_eq_self _ hall
    have hsplit : splitColon (hs ++ ':' :: ms) = [hs, ms] :=
      splitColon_append hs ms (fun c hc => (hch c hc).2)
        (fun c hc => (hcm c hc).2)
    unfold _parse_time_to_minutes
    simp only [show (String.mk (hs ++ ':' :: ms)).data = hs ++ ':' :: ms
      from rfl, hstrip, hsplit, hph, hpm]
  · intro rates pn hok
    exact ⟨_, build_ok rates pn hok⟩
  · intro mp1 mp2 pn hagree
    exact assembleTariff_congr mp1 mp2 pn hagree

/-- C10 witness: "25:99" — hour 25 and minute 99, both out of range — parses
to 25 * 60 + 99. -/
theorem claim_C10_witness :
    _parse_time_to_minutes ⟨['2', '5'] ++ ':' :: ['9', '9']⟩ =
      Except.ok (25 * 60 + 99) :=
  claim_C10_inert_range_check.1 ['2', '5'] ['9', '9'] 25 99
    (by decide) (by decide) (by decide) (by decide)

/-- C1 witness: the single rate 07:00–09:00 (30c buy / 5c sell) yields a full
48-slot document with zero-priced, warned slots outside 07:00–09:00. -/
theorem claim_C1_witness :
    ∃ mp res,
      minutePricesOf [⟨"07:00", "09:00", 30, 5⟩] (fun _ => none) =
        Except.ok mp ∧
      _build_tariff [⟨"07:00", "09:00", 30, 5⟩] none = Except.ok res ∧
      res.tariff.buyRates.map Prod.fst = slotKeys ∧
      res.tariff.sell_tariff.sellRates.map Prod.fst = slotKeys ∧
      res.tariff.buyRates.length = 48 ∧
      res.tariff.sell_tariff.sellRates.length = 48 ∧
      slotKeys.Nodup ∧
      (∀ slot : Nat, slot < 48 → mp (30 * (slot : Int)) = none →
        (slotKey slot, (0 : ℚ)) ∈ res.tariff.buyRates ∧
        (slotKey slot, (0 : ℚ)) ∈ res.tariff.sell_tariff.sellRates ∧
        slotKey slot ∈ res.warnings) ∧
      (∀ slot : Nat, slot < 48 → mp (30 * (slot : Int)) ≠ none →
        slotKey slot ∉ res.warnings) :=
  claim_C1_full_grid [⟨"07:00", "09:00", 30, 5⟩] none (by decide) (by decide)

/-- C6 witness: at slot 14 (07:00), a later 07:00–09:00 rate overrides an
earlier whole-day rate. -/
theorem claim_C6_witness :
    ∃ res,
      _build_tariff
          ([⟨"00:00", "00:00", 10, 1⟩] ++ ⟨"07:00", "09:00", 30, 5⟩ :: [])
          none = Except.ok res ∧
      (slotKey 14, (ratePrices ⟨"07:00", "09:00", 30, 5⟩).1) ∈
        res.tariff.buyRates ∧
      (slotKey 14, (ratePrices ⟨"07:00", "09:00", 30, 5⟩).2) ∈
        res.tariff.sell_tariff.sellRates :=
  claim_C6_later_rate_wins [⟨"00:00", "00:00", 10, 1⟩] []
    ⟨"07:00", "09:00", 30, 5⟩ none 14
    (by decide) (by decide) (by decide) (by decide)
